import Mathlib

/-!
Shallow embedding of the RansomDB row-encoding engine (crate `storage`,
files `src/lib.rs` and `src/db_value.rs`).

Modelling conventions:
* Byte buffers (`&[u8]`, `Vec<u8>`) are `List Nat`; every byte produced by an
  encoder is reduced `% 256`, mirroring `u8` narrowing.  Machine integers
  (`u64`, `u32`, `usize`) are `Nat` with explicit `% 2 ^ 64` / `% 2 ^ 32`
  where the code truncates.
* The model targets the `cfg(target_pointer_width = "64")` build, therefore
  `POINTER_SIZE = 8` and `std::mem::size_of::<usize>() = 8`.
* A Rust panic (slice index out of range, `byteorder` length assertion,
  `split_at_mut` past the end) is modelled as `Option.none`; a function that
  cannot panic on the modelled path is total.  `Result<(), String>` becomes
  `Except String Unit`, paired with the mutated state for `&mut` arguments.
* Rust `String` values are represented by their UTF-8 byte lists.
  `String::from_utf8_lossy` is the identity on valid UTF-8, and every byte
  list produced by encoding a `String` is valid UTF-8, so the decoders below
  return the raw bytes they read; theorems compare byte lists, which for
  values originating from `String`s coincides with comparing the strings.
-/

namespace RansomDB

/-- `POINTER_SIZE` from `lib.rs`/`db_value.rs` under
`cfg(target_pointer_width = "64")`. -/
def POINTER_SIZE : Nat := 8

/-- `DbHeap` (`db_value.rs`): a growable byte arena backed by `buf: Vec<u8>`. -/
structure DbHeap where
  buf : List Nat
deriving Repr, DecidableEq

/-- `DbHeap::new`. -/
def DbHeap.new : DbHeap := ⟨[]⟩

/-- Model of `Vec::append` from the Rust standard library: moves all elements
of `other` into `self`, leaving `other` empty.  Returns the post-call states
of `(self, other)`. -/
def vecAppend (self other : List Nat) : List Nat × List Nat :=
  (self ++ other, [])

/-- `DbHeap::append_data`: appends `data` to the internal buffer via
`Vec::append` and returns the pre-append length as the starting offset.
Result: (new heap, caller's `data` vector after the call, returned offset). -/
def DbHeap.append_data (h : DbHeap) (data : List Nat) : DbHeap × List Nat × Nat :=
  let prev_len := h.buf.length
  let r := vecAppend h.buf data
  (⟨r.1⟩, r.2, prev_len)

/-- `DbHeap::get_slice`: `&self.buf[offset..(offset+len)]`.  The Rust range
index panics when `offset + len > buf.len()`; the panic is `none`. -/
def DbHeap.get_slice (h : DbHeap) (offset len : Nat) : Option (List Nat) :=
  if offset + len ≤ h.buf.length then some ((h.buf.drop offset).take len) else none

/-- `byteorder::LittleEndian::read_u64`: requires at least 8 bytes (panics
otherwise) and combines the first 8 bytes little-endian. -/
def leRead64 (buf : List Nat) : Option Nat :=
  match buf with
  | b0 :: b1 :: b2 :: b3 :: b4 :: b5 :: b6 :: b7 :: _ =>
    some (b0 + b1 * 256 + b2 * 65536 + b3 * 16777216 + b4 * 4294967296 +
      b5 * 1099511627776 + b6 * 281474976710656 + b7 * 72057594037927936)
  | _ => none

/-- The 8 little-endian base-256 digits of `n`'s low 64 bits, as written by
`byteorder::LittleEndian::write_u64`. -/
def leBytes64 (n : Nat) : List Nat :=
  [n % 256, n / 256 % 256, n / 65536 % 256, n / 16777216 % 256,
   n / 4294967296 % 256, n / 1099511627776 % 256,
   n / 281474976710656 % 256, n / 72057594037927936 % 256]

/-- `byteorder::LittleEndian::write_u64` into a buffer: overwrites the first
8 bytes (panics when fewer than 8 are available), keeps the rest. -/
def leWrite64 (buf : List Nat) (n : Nat) : Option (List Nat) :=
  if 8 ≤ buf.length then some (leBytes64 n ++ buf.drop 8) else none

/-- `byteorder::LittleEndian::read_u32`. -/
def leRead32 (buf : List Nat) : Option Nat :=
  match buf with
  | b0 :: b1 :: b2 :: b3 :: _ =>
    some (b0 + b1 * 256 + b2 * 65536 + b3 * 16777216)
  | _ => none

/-- The 4 little-endian base-256 digits of `n`'s low 32 bits. -/
def leBytes32 (n : Nat) : List Nat :=
  [n % 256, n / 256 % 256, n / 65536 % 256, n / 16777216 % 256]

/-- `byteorder::LittleEndian::write_u32`. -/
def leWrite32 (buf : List Nat) (n : Nat) : Option (List Nat) :=
  if 4 ≤ buf.length then some (leBytes32 n ++ buf.drop 4) else none

namespace DbValueMod
/-! The `DbValue` impls of `db_value.rs`.  `read_from_buffer` overwrites
`self` completely, so it is modelled as returning the new payload;
`write_to_buffer` returns the mutated row slice (and heap where used). -/

/-- `DBUInt64::size` (`db_value.rs`). -/
def DBUInt64.size (_v : Nat) : Nat := 8

/-- `DBUInt64::read_from_buffer` (`db_value.rs`):
`self.0 = LittleEndian::read_u64(buf)`. -/
def DBUInt64.read_from_buffer (buf : List Nat) : Option Nat :=
  leRead64 buf

/-- `DBUInt64::write_to_buffer` (`db_value.rs`):
`LittleEndian::write_u64(buf, self.0)`. -/
def DBUInt64.write_to_buffer (v : Nat) (buf : List Nat) : Option (List Nat) :=
  leWrite64 buf v

/-- `DBUInt32::size` (`db_value.rs`). -/
def DBUInt32.size (_v : Nat) : Nat := 4

/-- `DBUInt32::read_from_buffer` (`db_value.rs`). -/
def DBUInt32.read_from_buffer (buf : List Nat) : Option Nat :=
  leRead32 buf

/-- `DBUInt32::write_to_buffer` (`db_value.rs`). -/
def DBUInt32.write_to_buffer (v : Nat) (buf : List Nat) : Option (List Nat) :=
  leWrite32 buf v

/-- `DBBoolean::size` (`db_value.rs`). -/
def DBBoolean.size (_v : Bool) : Nat := 1

/-- `DBBoolean::read_from_buffer`: `self.0 = buf[0] == 1` (index panics on an
empty slice). -/
def DBBoolean.read_from_buffer (buf : List Nat) : Option Bool :=
  match buf with
  | b0 :: _ => some (b0 == 1)
  | [] => none

/-- `DBBoolean::write_to_buffer`: `buf[0] = if self.0 { 1 } else { 0 }`. -/
def DBBoolean.write_to_buffer (v : Bool) (buf : List Nat) : Option (List Nat) :=
  match buf with
  | _ :: rest => some ((if v then 1 else 0) :: rest)
  | [] => none

/-- `DBInlineString::size`: `1 + self.0.len()` — one length byte plus the
string's current UTF-8 byte length. -/
def DBInlineString.size (s : List Nat) : Nat := 1 + s.length

/-- `DBInlineString::read_from_buffer`: `size = buf[0]` (panics on an empty
slice); `data = &buf[1..size+1]` (panics when `size + 1 > buf.len()`); the
value is `String::from_utf8_lossy(data)`, i.e. the bytes themselves when they
are valid UTF-8. -/
def DBInlineString.read_from_buffer (buf : List Nat) : Option (List Nat) :=
  match buf with
  | size :: rest => if size ≤ rest.length then some (rest.take size) else none
  | [] => none

/-- `DBInlineString::write_to_buffer`: `split_at_mut(1)` (panics on an empty
slice); `size_buf[0] = data_size as u8` — the `as u8` narrowing keeps only
`data_size % 256`; then `ptr::copy` of `data_size` bytes into the data part,
undefined behaviour (modelled `none`) when the data part is shorter than
`data_size`.  No error is ever reported. -/
def DBInlineString.write_to_buffer (s : List Nat) (buf : List Nat) :
    Option (List Nat) :=
  match buf with
  | _ :: rest =>
    if s.length ≤ rest.length then
      some ((s.length % 256) :: (s ++ rest.drop s.length))
    else none
  | [] => none

/-- `DBExternalString::size`: `std::mem::size_of::<usize>() + self.0.len()`,
i.e. the pointer width plus the string's current byte length. -/
def DBExternalString.size (s : List Nat) : Nat := POINTER_SIZE + s.length

/-- `DBExternalString::read_from_buffer` (64-bit cfg): reads the heap offset
from the row slice, an 8-byte little-endian length from the heap at that
offset, then `size` payload bytes starting at `offset + 8`. -/
def DBExternalString.read_from_buffer (buf : List Nat) (heap : DbHeap) :
    Option (List Nat) := do
  let offset ← leRead64 buf
  let sizeSlice ← heap.get_slice offset 8
  let size ← leRead64 sizeSlice
  let data ← heap.get_slice (offset + 8) size
  pure data

/-- `DBExternalString::write_to_buffer` (64-bit cfg): builds
`[8-byte LE length][payload]`, appends it to the heap via `append_data`, and
writes the returned offset little-endian into the row slice. -/
def DBExternalString.write_to_buffer (s : List Nat) (buf : List Nat)
    (heap : DbHeap) : Option (List Nat × DbHeap) :=
  let len_prefixed_string := leBytes64 s.length ++ s
  let r := heap.append_data len_prefixed_string
  match leWrite64 buf r.2.2 with
  | some buf2 => some (buf2, r.1)
  | none => none

end DbValueMod

namespace LibMod
/-! The near-duplicate `DbValue` impl of `lib.rs`, whose trait returns
`Result<(), String>`.  `read_from_buffer(&mut self, buf)` is modelled as
returning the call's `Result` together with the post-call `self.0`;
`write_to_buffer(&self, buf)` returns the `Result` with the post-call buffer. -/

/-- `DBUInt64::size` (`lib.rs`). -/
def DBUInt64.size (_v : Nat) : Nat := 8

/-- `DBUInt64::read_from_buffer` (`lib.rs`): matches the slice against the
pattern `[b0, .., b7]` (exactly 8 bytes); on a match, assembles the value
with shifts and bitwise or; otherwise returns `Err` and leaves `self`
untouched. -/
def DBUInt64.read_from_buffer (self : Nat) (buf : List Nat) :
    Except String Unit × Nat :=
  match buf with
  | [b0, b1, b2, b3, b4, b5, b6, b7] =>
    (Except.ok (),
      b0 ||| (b1 <<< 8) ||| (b2 <<< 16) ||| (b3 <<< 24) ||| (b4 <<< 32) |||
        (b5 <<< 40) ||| (b6 <<< 48) ||| (b7 <<< 56))
  | _ => (Except.error ("Invalid buffer length: " ++ toString buf.length), self)

/-- `DBUInt64::write_to_buffer` (`lib.rs`): on an exactly-8-byte slice,
stores `(self.0 >> 8k) & 0xff` into byte `k`; otherwise `Err`, buffer
untouched. -/
def DBUInt64.write_to_buffer (self : Nat) (buf : List Nat) :
    Except String Unit × List Nat :=
  match buf with
  | [_, _, _, _, _, _, _, _] =>
    (Except.ok (),
      [self &&& 255, (self >>> 8) &&& 255, (self >>> 16) &&& 255,
       (self >>> 24) &&& 255, (self >>> 32) &&& 255, (self >>> 40) &&& 255,
       (self >>> 48) &&& 255, (self >>> 56) &&& 255])
  | _ => (Except.error ("Invalid buffer length: " ++ toString buf.length), buf)

end LibMod

/-- `DbType` (`lib.rs`): the supported column types. -/
inductive DbType where
  | Boolean
  | Int32
  | UInt32
  | Int64
  | UInt64
  | Varchar (len : Nat)
  | Blob
deriving Repr, DecidableEq

/-- `DbType::size` (`lib.rs`): the fixed in-row footprint of each type. -/
def DbType.size : DbType → Nat
  | .Boolean => 1
  | .Int32 => 4
  | .UInt32 => 4
  | .Int64 => 8
  | .UInt64 => 8
  | .Varchar len => if len < 256 then 1 + len else 2 + POINTER_SIZE
  | .Blob => 2 + POINTER_SIZE

/-- `TypeSpec` (`lib.rs`). -/
structure TypeSpec where
  db_type : DbType
  is_nullable : Bool
  default : Option (List Nat)
deriving Repr, DecidableEq

/-- `TypeSpec::size`. -/
def TypeSpec.size (t : TypeSpec) : Nat := t.db_type.size

/-- `FieldSpec` (`lib.rs`). -/
structure FieldSpec where
  name : String
  type_spec : TypeSpec
deriving Repr, DecidableEq

/-- `FieldSpec::size`. -/
def FieldSpec.size (f : FieldSpec) : Nat := f.type_spec.size

/-- `type Schema = Vec<FieldSpec>` (`lib.rs`).  The `Rc` sharing wrapper is
dropped: the model uses value semantics. -/
abbrev Schema := List FieldSpec

/-- `Table` (`lib.rs`). -/
structure Table where
  name : String
  schema : Schema
  fixed_data : List Nat
  variable_data : List Nat

/-- `Table::row_length`: folds the field sizes over the schema. -/
def Table.row_length (t : Table) : Nat :=
  t.schema.foldl (fun acc field_spec => acc + field_spec.size) 0

/-- Per-field footprint table exactly as the specification states it, for
comparison with the implementation's `DbType.size`. -/
def specFootprint : DbType → Nat
  | .Boolean => 1
  | .Int32 => 4
  | .UInt32 => 4
  | .Int64 => 8
  | .UInt64 => 8
  | .Varchar max_len => if max_len < 256 then 1 + max_len else 2 + POINTER_SIZE
  | .Blob => 2 + POINTER_SIZE

/-- Iterated `append_data`, keeping only the heap: models a sequence of
further appends performed after an offset was handed out. -/
def appendAll (h : DbHeap) (ds : List (List Nat)) : DbHeap :=
  ds.foldl (fun h d => (h.append_data d).1) h

/-! Helper lemmas. -/

theorem appendAll_buf_ext : ∀ (ds : List (List Nat)) (h : DbHeap),
    ∃ rest, (appendAll h ds).buf = h.buf ++ rest := by
  intro ds
  induction ds with
  | nil => intro h; exact ⟨[], by simp [appendAll]⟩
  | cons d ds ih =>
    intro h
    obtain ⟨rest, hrest⟩ := ih ⟨h.buf ++ d⟩
    refine ⟨d ++ rest, ?_⟩
    simpa [appendAll, DbHeap.append_data, vecAppend, List.append_assoc] using hrest

theorem foldl_add_size : ∀ (l : List FieldSpec) (n : Nat),
    l.foldl (fun acc f => acc + f.size) n = n + (l.map FieldSpec.size).sum := by
  intro l
  induction l with
  | nil => intro n; simp
  | cons f l ih => intro n; simp [List.foldl_cons, ih]; omega

theorem size_eq_specFootprint (f : FieldSpec) :
    f.size = specFootprint f.type_spec.db_type := by
  rcases f with ⟨name, ⟨ty, nl, df⟩⟩
  cases ty <;> rfl

theorem sum_map_size_eq (l : List FieldSpec) :
    (l.map FieldSpec.size).sum =
      (l.map (fun f => specFootprint f.type_spec.db_type)).sum := by
  induction l with
  | nil => rfl
  | cons f l ih => simp [size_eq_specFootprint f, ih]

/-! Claim theorems. -/

theorem leRead64_none_iff (buf : List Nat) : leRead64 buf = none ↔ buf.length < 8 := by
  match buf with
  | [] => exact iff_of_true rfl (by simp)
  | [b0] => exact iff_of_true rfl (by simp)
  | [b0, b1] => exact iff_of_true rfl (by simp)
  | [b0, b1, b2] => exact iff_of_true rfl (by simp)
  | [b0, b1, b2, b3] => exact iff_of_true rfl (by simp)
  | [b0, b1, b2, b3, b4] => exact iff_of_true rfl (by simp)
  | [b0, b1, b2, b3, b4, b5] => exact iff_of_true rfl (by simp)
  | [b0, b1, b2, b3, b4, b5, b6] => exact iff_of_true rfl (by simp)
  | b0 :: b1 :: b2 :: b3 :: b4 :: b5 :: b6 :: b7 :: rest =>
    exact iff_of_false (fun h => Option.noConfusion h)
      (by simp only [List.length_cons]; omega)

theorem leRead64_take (buf : List Nat) (h8 : 8 ≤ buf.length) :
    leRead64 buf = leRead64 (buf.take 8) := by
  match buf with
  | [] | [_] | [_, _] | [_, _, _] | [_, _, _, _] | [_, _, _, _, _]
  | [_, _, _, _, _, _] | [_, _, _, _, _, _, _] =>
    exact absurd h8 (by simp)
  | b0 :: b1 :: b2 :: b3 :: b4 :: b5 :: b6 :: b7 :: rest => rfl

theorem leRead64_leBytes64 (n : Nat) (rest : List Nat) :
    leRead64 (leBytes64 n ++ rest) = some (n % 18446744073709551616) := by
  have h : leRead64 (leBytes64 n ++ rest)
      = some (n % 256 + n / 256 % 256 * 256 + n / 65536 % 256 * 65536 +
        n / 16777216 % 256 * 16777216 + n / 4294967296 % 256 * 4294967296 +
        n / 1099511627776 % 256 * 1099511627776 +
        n / 281474976710656 % 256 * 281474976710656 +
        n / 72057594037927936 % 256 * 72057594037927936) := rfl
  rw [h, Option.some.injEq]
  omega

theorem leRead32_leBytes32 (n : Nat) (rest : List Nat) :
    leRead32 (leBytes32 n ++ rest) = some (n % 4294967296) := by
  have h : leRead32 (leBytes32 n ++ rest)
      = some (n % 256 + n / 256 % 256 * 256 + n / 65536 % 256 * 65536 +
        n / 16777216 % 256 * 16777216) := rfl
  rw [h, Option.some.injEq]
  omega

theorem u64_roundtrip (v : Nat) (buf : List Nat)
    (hv : v < 18446744073709551616) (hb : 8 ≤ buf.length) :
    (DbValueMod.DBUInt64.write_to_buffer v buf).bind
      DbValueMod.DBUInt64.read_from_buffer = some v := by
  have h : DbValueMod.DBUInt64.write_to_buffer v buf =
      some (leBytes64 v ++ buf.drop 8) := by
    unfold DbValueMod.DBUInt64.write_to_buffer leWrite64
    rw [if_pos hb]
  rw [h]
  show DbValueMod.DBUInt64.read_from_buffer (leBytes64 v ++ buf.drop 8) = some v
  unfold DbValueMod.DBUInt64.read_from_buffer
  rw [leRead64_leBytes64, Nat.mod_eq_of_lt hv]

theorem u32_roundtrip (v : Nat) (buf : List Nat)
    (hv : v < 4294967296) (hb : 4 ≤ buf.length) :
    (DbValueMod.DBUInt32.write_to_buffer v buf).bind
      DbValueMod.DBUInt32.read_from_buffer = some v := by
  have h : DbValueMod.DBUInt32.write_to_buffer v buf =
      some (leBytes32 v ++ buf.drop 4) := by
    unfold DbValueMod.DBUInt32.write_to_buffer leWrite32
    rw [if_pos hb]
  rw [h]
  show DbValueMod.DBUInt32.read_from_buffer (leBytes32 v ++ buf.drop 4) = some v
  unfold DbValueMod.DBUInt32.read_from_buffer
  rw [leRead32_leBytes32, Nat.mod_eq_of_lt hv]

theorem bool_roundtrip (b : Bool) (buf : List Nat) (hb : buf ≠ []) :
    (DbValueMod.DBBoolean.write_to_buffer b buf).bind
      DbValueMod.DBBoolean.read_from_buffer = some b := by
  match buf with
  | [] => exact absurd rfl hb
  | x :: rest => cases b <;> rfl

theorem inline_roundtrip (s buf : List Nat)
    (h255 : s.length ≤ 255) (hlen : s.length < buf.length) :
    (DbValueMod.DBInlineString.write_to_buffer s buf).bind
      DbValueMod.DBInlineString.read_from_buffer = some s := by
  match buf with
  | [] => simp at hlen
  | b0 :: rest =>
    have hsr : s.length ≤ rest.length := by
      simp only [List.length_cons] at hlen; omega
    have hw : DbValueMod.DBInlineString.write_to_buffer s (b0 :: rest) =
        some ((s.length % 256) :: (s ++ rest.drop s.length)) := by
      simp only [DbValueMod.DBInlineString.write_to_buffer, if_pos hsr]
    rw [hw]
    show DbValueMod.DBInlineString.read_from_buffer
      ((s.length % 256) :: (s ++ rest.drop s.length)) = some s
    have hmod : s.length % 256 = s.length := Nat.mod_eq_of_lt (by omega)
    simp only [DbValueMod.DBInlineString.read_from_buffer, hmod]
    rw [if_pos (by simp only [List.length_append]; omega)]
    rw [List.take_left]

theorem external_write_eq (s buf : List Nat) (heap : DbHeap)
    (hb : 8 ≤ buf.length) :
    DbValueMod.DBExternalString.write_to_buffer s buf heap =
      some (leBytes64 heap.buf.length ++ buf.drop 8,
        ⟨heap.buf ++ (leBytes64 s.length ++ s)⟩) := by
  unfold DbValueMod.DBExternalString.write_to_buffer leWrite64
  simp only [DbHeap.append_data, vecAppend, if_pos hb]

theorem external_read_eq (s : List Nat) (heap : DbHeap) (tail : List Nat)
    (ho : heap.buf.length < 18446744073709551616)
    (hs : s.length < 18446744073709551616) :
    DbValueMod.DBExternalString.read_from_buffer
      (leBytes64 heap.buf.length ++ tail)
      ⟨heap.buf ++ (leBytes64 s.length ++ s)⟩ = some s := by
  have h1 : leRead64 (leBytes64 heap.buf.length ++ tail) =
      some heap.buf.length := by
    rw [leRead64_leBytes64, Nat.mod_eq_of_lt ho]
  have h2 : DbHeap.get_slice ⟨heap.buf ++ (leBytes64 s.length ++ s)⟩
      heap.buf.length 8 = some (leBytes64 s.length) := by
    unfold DbHeap.get_slice
    rw [if_pos (by
      simp only [List.length_append, leBytes64, List.length_cons, List.length_nil]
      omega)]
    rw [List.drop_left, List.take_left' (by simp [leBytes64])]
  have h3 : leRead64 (leBytes64 s.length) = some s.length := by
    have h := leRead64_leBytes64 s.length []
    rw [List.append_nil] at h
    rw [h, Nat.mod_eq_of_lt hs]
  have h4 : DbHeap.get_slice ⟨heap.buf ++ (leBytes64 s.length ++ s)⟩
      (heap.buf.length + 8) s.length = some s := by
    unfold DbHeap.get_slice
    rw [if_pos (by
      simp only [List.length_append, leBytes64, List.length_cons, List.length_nil]
      omega)]
    rw [show heap.buf ++ (leBytes64 s.length ++ s) =
      (heap.buf ++ leBytes64 s.length) ++ s from (List.append_assoc ..).symm]
    rw [List.drop_left' (by simp [leBytes64]), List.take_length]
  simp only [DbValueMod.DBExternalString.read_from_buffer, bind, h1, h2, h3, h4,
    Option.some_bind, Option.pure_def]

theorem external_roundtrip (s buf : List Nat) (heap : DbHeap)
    (hb : 8 ≤ buf.length) (ho : heap.buf.length < 18446744073709551616)
    (hs : s.length < 18446744073709551616) :
    (DbValueMod.DBExternalString.write_to_buffer s buf heap).bind
      (fun r => DbValueMod.DBExternalString.read_from_buffer r.1 r.2) =
      some s := by
  rw [external_write_eq s buf heap hb]
  exact external_read_eq s heap (buf.drop 8) ho hs

/-- C2 counterexample: the claim says every decode given a slice whose length
differs from `serialized_size()` fails with a caller-returned error.  In
`db_value.rs`, `DBUInt64::read_from_buffer` on a 9-byte slice neither panics
nor returns an error: it succeeds, reading the first 8 bytes. -/
theorem claim_C2_cex_long_slice_decodes :
    (List.replicate 9 (0 : Nat)).length ≠ DbValueMod.DBUInt64.size 0 ∧
    DbValueMod.DBUInt64.read_from_buffer (List.replicate 9 0) = some 0 := by
  exact ⟨by decide, rfl⟩

/-- C2 amended: in `db_value.rs` an out-of-range access halts with a panic
(modelled `none`) rather than a caller-returned error, and never reads out of
bounds: `DBUInt64::read_from_buffer` fails exactly when the slice is shorter
than 8 bytes (a longer slice is accepted, reading only its first 8 bytes),
and `DbHeap::get_slice` fails exactly when `offset + len` exceeds the heap
length, otherwise returning precisely the in-bounds bytes
`(buf.drop offset).take len`. -/
theorem claim_C2_bounds_checked (buf : List Nat) (h : DbHeap) (o l : Nat) :
    (DbValueMod.DBUInt64.read_from_buffer buf = none ↔ buf.length < 8) ∧
    (h.get_slice o l = none ↔ h.buf.length < o + l) ∧
    (∀ s, h.get_slice o l = some s →
      o + l ≤ h.buf.length ∧ s = (h.buf.drop o).take l) ∧
    (8 ≤ buf.length →
      DbValueMod.DBUInt64.read_from_buffer buf =
        DbValueMod.DBUInt64.read_from_buffer (buf.take 8)) := by
  refine ⟨leRead64_none_iff buf, ?_, ?_, fun h8 => leRead64_take buf h8⟩
  · by_cases hc : o + l ≤ h.buf.length
    · simp only [DbHeap.get_slice, if_pos hc]
      constructor
      · intro hcontra; exact Option.noConfusion hcontra
      · omega
    · simp only [DbHeap.get_slice, if_neg hc]
      constructor
      · intro _; omega
      · intro _; trivial
  · intro s hs
    by_cases hc : o + l ≤ h.buf.length
    · simp only [DbHeap.get_slice, if_pos hc, Option.some.injEq] at hs
      exact ⟨hc, hs.symm⟩
    · simp only [DbHeap.get_slice, if_neg hc] at hs
      exact Option.noConfusion hs

/-- Witness for the amended C2 statement: a 3-byte slice fails to decode as
a `DBUInt64`, and slicing a 2-byte heap at `(1, 5)` fails. -/
theorem claim_C2_bounds_checked_witness :
    DbValueMod.DBUInt64.read_from_buffer [1, 2, 3] = none ∧
    DbHeap.get_slice ⟨[5, 6]⟩ 1 5 = none := by
  have h := claim_C2_bounds_checked [1, 2, 3] ⟨[5, 6]⟩ 1 5
  exact ⟨h.1.mpr (by simp), h.2.1.mpr (by simp)⟩

/-- C3 counterexample: the claim says `serialized_size()` of an external
string equals the pointer footprint.  `DBExternalString::size` on the 3-byte
string "abc" returns `8 + 3 = 11`, which is neither `POINTER_SIZE = 8` nor
the external Type Descriptor footprint `2 + POINTER_SIZE = 10`. -/
theorem claim_C3_cex_external_size_depends_on_len :
    DbValueMod.DBExternalString.size [97, 98, 99] = 11 ∧
    DbValueMod.DBExternalString.size [97, 98, 99] ≠ POINTER_SIZE ∧
    DbValueMod.DBExternalString.size [97, 98, 99] ≠ DbType.size DbType.Blob := by
  exact ⟨rfl, by decide, by decide⟩

/-- C3 amended: the scalar codecs' `serialized_size()` equals the Type
Descriptor footprint and is independent of the stored value, but the string
codecs' sizes depend on their current contents: `DBInlineString` reports
`1 + current byte length` (the footprint of `Varchar(current length)` when
that length is below 256), and `DBExternalString` reports
`pointer_size + current byte length`, not the pointer footprint. -/
theorem claim_C3_serialized_size (v w : Nat) (p q : Bool) (s t : List Nat)
    (hs : s.length < 256) :
    DbValueMod.DBUInt64.size v = DbType.size DbType.UInt64 ∧
    DbValueMod.DBUInt64.size v = DbValueMod.DBUInt64.size w ∧
    DbValueMod.DBUInt32.size v = DbType.size DbType.UInt32 ∧
    DbValueMod.DBUInt32.size v = DbValueMod.DBUInt32.size w ∧
    DbValueMod.DBBoolean.size p = DbType.size DbType.Boolean ∧
    DbValueMod.DBBoolean.size p = DbValueMod.DBBoolean.size q ∧
    DbValueMod.DBInlineString.size s = 1 + s.length ∧
    DbValueMod.DBInlineString.size s = DbType.size (DbType.Varchar s.length) ∧
    DbValueMod.DBExternalString.size t = POINTER_SIZE + t.length := by
  refine ⟨rfl, rfl, rfl, rfl, rfl, rfl, rfl, ?_, rfl⟩
  simp [DbValueMod.DBInlineString.size, DbType.size, hs]

/-- Witness for the amended C3 statement at concrete values: integers 0 and
7, booleans, the one-byte whitespace string, and the 4-byte taco emoji. -/
theorem claim_C3_serialized_size_witness :
    DbValueMod.DBUInt64.size 0 = DbType.size DbType.UInt64 ∧
    DbValueMod.DBUInt64.size 0 = DbValueMod.DBUInt64.size 7 ∧
    DbValueMod.DBUInt32.size 0 = DbType.size DbType.UInt32 ∧
    DbValueMod.DBUInt32.size 0 = DbValueMod.DBUInt32.size 7 ∧
    DbValueMod.DBBoolean.size true = DbType.size DbType.Boolean ∧
    DbValueMod.DBBoolean.size true = DbValueMod.DBBoolean.size false ∧
    DbValueMod.DBInlineString.size [32] = 1 + ([32] : List Nat).length ∧
    DbValueMod.DBInlineString.size [32] =
      DbType.size (DbType.Varchar ([32] : List Nat).length) ∧
    DbValueMod.DBExternalString.size [240, 159, 140, 174] =
      POINTER_SIZE + ([240, 159, 140, 174] : List Nat).length :=
  claim_C3_serialized_size 0 7 true false [32] [240, 159, 140, 174] (by decide)

set_option maxRecDepth 4000 in
/-- C1: the claim says encoding an inline string longer than 255 bytes must
fail with a length-overflow error, never silently truncate.  The code instead
succeeds: on a 256-byte string (and a large enough target slice) it reports
no error and writes length byte `256 as u8 = 0`, silently truncating.  The
specification itself flags this narrowing cast as a latent bug. -/
theorem claim_C1_inline_overflow_silently_truncates :
    DbValueMod.DBInlineString.write_to_buffer (List.replicate 256 97)
      (List.replicate 257 0) = some (0 :: List.replicate 256 97) ∧
    (List.replicate 256 (97 : Nat)).length = 256 := by
  constructor
  · rfl
  · simp

/-- C5: `append_data` never fails, returns the pre-append length as the
offset, and that offset is stable: after any sequence of further appends,
slicing the heap at the returned offset with the appended data's length
reproduces exactly the appended bytes. -/
theorem claim_C5_append_offset_stable (h : DbHeap) (d : List Nat)
    (ds : List (List Nat)) :
    (h.append_data d).2.2 = h.buf.length ∧
    (appendAll (h.append_data d).1 ds).get_slice h.buf.length d.length =
      some d := by
  constructor
  · rfl
  · obtain ⟨rest, hrest⟩ := appendAll_buf_ext ds (h.append_data d).1
    have hbuf : (appendAll (h.append_data d).1 ds).buf = h.buf ++ (d ++ rest) := by
      simpa [DbHeap.append_data, vecAppend, List.append_assoc] using hrest
    simp only [DbHeap.get_slice, hbuf]
    rw [if_pos (by simp only [List.length_append]; omega)]
    rw [List.drop_left, List.take_left]

/-- C6: `row_length` is the sum, in declaration order, of the per-field
footprints as tabulated in the specification, and takes the stated concrete
values on the spec's example schemas (with `POINTER_SIZE = 8`). -/
theorem claim_C6_row_length (t : Table) :
    t.row_length = (t.schema.map (fun f => specFootprint f.type_spec.db_type)).sum ∧
    (Table.mk "test 1" [⟨"id", ⟨.UInt64, false, none⟩⟩] [] []).row_length = 8 ∧
    (Table.mk "test 2"
      [⟨"id", ⟨.UInt64, false, none⟩⟩, ⟨"age", ⟨.UInt32, false, none⟩⟩,
       ⟨"is_active", ⟨.Boolean, false, none⟩⟩,
       ⟨"notes", ⟨.Varchar 1000, false, none⟩⟩,
       ⟨"image", ⟨.Blob, false, none⟩⟩] [] []).row_length =
      17 + 2 * POINTER_SIZE ∧
    (Table.mk "test 1" [⟨"name", ⟨.Varchar 30, false, none⟩⟩] [] []).row_length = 31 ∧
    (Table.mk "test 1"
      [⟨"title", ⟨.Varchar 30, false, none⟩⟩,
       ⟨"description", ⟨.Varchar 255, false, none⟩⟩] [] []).row_length = 287 := by
  refine ⟨?_, by rfl, by rfl, by rfl, by rfl⟩
  rw [Table.row_length, foldl_add_size]
  simp only [Nat.zero_add]
  exact sum_map_size_eq t.schema

/-- C9: `append_data` moves its input: the caller's vector is left empty
(`Vec::append` semantics) and the heap grows by exactly the former length of
the input. -/
theorem claim_C9_append_data_moves (h : DbHeap) (data : List Nat) :
    (h.append_data data).2.1 = [] ∧
    (h.append_data data).1.buf.length = h.buf.length + data.length ∧
    (h.append_data data).1.buf = h.buf ++ data := by
  refine ⟨rfl, ?_, rfl⟩
  simp [DbHeap.append_data, vecAppend]

/-- C4: for each supported codec, encoding into a large-enough row slice
(and heap for the external codec) and then decoding yields the original
value: `u64` and `u32` below their type bounds, booleans, inline strings of
at most 255 bytes, and external strings of any representable length. -/
theorem claim_C4_roundtrip (v64 v32 : Nat) (b : Bool) (s t : List Nat)
    (buf8 buf4 buf1 bufS bufE : List Nat) (heap : DbHeap)
    (hv64 : v64 < 18446744073709551616) (hv32 : v32 < 4294967296)
    (hb8 : 8 ≤ buf8.length) (hb4 : 4 ≤ buf4.length) (hb1 : buf1 ≠ [])
    (hs255 : s.length ≤ 255) (hbS : s.length < bufS.length)
    (hbE : 8 ≤ bufE.length) (hheap : heap.buf.length < 18446744073709551616)
    (ht : t.length < 18446744073709551616) :
    (DbValueMod.DBUInt64.write_to_buffer v64 buf8).bind
      DbValueMod.DBUInt64.read_from_buffer = some v64 ∧
    (DbValueMod.DBUInt32.write_to_buffer v32 buf4).bind
      DbValueMod.DBUInt32.read_from_buffer = some v32 ∧
    (DbValueMod.DBBoolean.write_to_buffer b buf1).bind
      DbValueMod.DBBoolean.read_from_buffer = some b ∧
    (DbValueMod.DBInlineString.write_to_buffer s bufS).bind
      DbValueMod.DBInlineString.read_from_buffer = some s ∧
    (DbValueMod.DBExternalString.write_to_buffer t bufE heap).bind
      (fun r => DbValueMod.DBExternalString.read_from_buffer r.1 r.2) =
      some t :=
  ⟨u64_roundtrip v64 buf8 hv64 hb8, u32_roundtrip v32 buf4 hv32 hb4,
   bool_roundtrip b buf1 hb1, inline_roundtrip s bufS hs255 hbS,
   external_roundtrip t bufE heap hbE hheap ht⟩

set_option maxRecDepth 4000 in
/-- Witness for C4 at boundary values: the maximum `u64` and `u32` values,
`true`, an inline string of exactly 255 bytes, and the 4-byte UTF-8 taco
emoji through the external codec. -/
theorem claim_C4_roundtrip_witness :
    (DbValueMod.DBUInt64.write_to_buffer 18446744073709551615
        (List.replicate 8 0)).bind
      DbValueMod.DBUInt64.read_from_buffer = some 18446744073709551615 ∧
    (DbValueMod.DBUInt32.write_to_buffer 4294967295
        (List.replicate 4 0)).bind
      DbValueMod.DBUInt32.read_from_buffer = some 4294967295 ∧
    (DbValueMod.DBBoolean.write_to_buffer true [0]).bind
      DbValueMod.DBBoolean.read_from_buffer = some true ∧
    (DbValueMod.DBInlineString.write_to_buffer (List.replicate 255 97)
        (List.replicate 256 0)).bind
      DbValueMod.DBInlineString.read_from_buffer =
      some (List.replicate 255 97) ∧
    (DbValueMod.DBExternalString.write_to_buffer [240, 159, 140, 174]
        (List.replicate 8 0) ⟨[]⟩).bind
      (fun r => DbValueMod.DBExternalString.read_from_buffer r.1 r.2) =
      some [240, 159, 140, 174] :=
  claim_C4_roundtrip 18446744073709551615 4294967295 true
    (List.replicate 255 97) [240, 159, 140, 174]
    (List.replicate 8 0) (List.replicate 4 0) [0] (List.replicate 256 0)
    (List.replicate 8 0) ⟨[]⟩
    (by norm_num) (by norm_num) (by simp) (by simp) (by simp)
    (by simp) (by simp) (by simp) (by simp) (by simp)

/-- C7: encoding an external string of byte length `L` appends to the heap
exactly the record `[8-byte little-endian L][the L payload bytes]` at offset
equal to the heap's previous length, writes that offset as an 8-byte
little-endian integer into the row slice, and decoding that slice against
that heap returns the payload, for every `L`. -/
theorem claim_C7_external_layout (s buf : List Nat) (heap : DbHeap)
    (hb : 8 ≤ buf.length) (ho : heap.buf.length < 18446744073709551616)
    (hs : s.length < 18446744073709551616) :
    DbValueMod.DBExternalString.write_to_buffer s buf heap =
      some (leBytes64 heap.buf.length ++ buf.drop 8,
        ⟨heap.buf ++ (leBytes64 s.length ++ s)⟩) ∧
    DbValueMod.DBExternalString.read_from_buffer
      (leBytes64 heap.buf.length ++ buf.drop 8)
      ⟨heap.buf ++ (leBytes64 s.length ++ s)⟩ = some s :=
  ⟨external_write_eq s buf heap hb, external_read_eq s heap (buf.drop 8) ho hs⟩

set_option maxRecDepth 4000 in
/-- Witness for C7: a 300-byte payload (beyond the inline limit) appended to
a 3-byte heap, so the returned offset is 3. -/
theorem claim_C7_external_layout_witness :
    DbValueMod.DBExternalString.write_to_buffer (List.replicate 300 97)
      (List.replicate 8 0) ⟨[1, 2, 3]⟩ =
      some (leBytes64 3 ++ (List.replicate 8 (0 : Nat)).drop 8,
        ⟨[1, 2, 3] ++ (leBytes64 300 ++ List.replicate 300 97)⟩) ∧
    DbValueMod.DBExternalString.read_from_buffer
      (leBytes64 3 ++ (List.replicate 8 (0 : Nat)).drop 8)
      ⟨[1, 2, 3] ++ (leBytes64 300 ++ List.replicate 300 97)⟩ =
      some (List.replicate 300 97) :=
  claim_C7_external_layout (List.replicate 300 97) (List.replicate 8 0)
    ⟨[1, 2, 3]⟩ (by simp) (by simp) (by simp)

theorem lor_shiftLeft_eq_add {a : Nat} (b k : Nat) (h : a < 2 ^ k) :
    a ||| (b <<< k) = a + b * 2 ^ k := by
  apply Nat.eq_of_testBit_eq
  intro j
  rw [Nat.testBit_or, Nat.testBit_shiftLeft]
  rw [show a + b * 2 ^ k = 2 ^ k * b + a by ring]
  rw [Nat.testBit_mul_pow_two_add b h j]
  by_cases hj : j < k
  · have hk : ¬(k ≤ j) := by omega
    simp [hj, hk]
  · have hk : k ≤ j := by omega
    have ha : a.testBit j = false :=
      Nat.testBit_lt_two_pow
        (lt_of_lt_of_le h (Nat.pow_le_pow_right (by norm_num) hk))
    simp [hj, hk, ha]

theorem lor_le_chain (b0 b1 b2 b3 b4 b5 b6 b7 : Nat)
    (h0 : b0 < 256) (h1 : b1 < 256) (h2 : b2 < 256) (h3 : b3 < 256)
    (h4 : b4 < 256) (h5 : b5 < 256) (h6 : b6 < 256) (h7 : b7 < 256) :
    b0 ||| (b1 <<< 8) ||| (b2 <<< 16) ||| (b3 <<< 24) ||| (b4 <<< 32) |||
      (b5 <<< 40) ||| (b6 <<< 48) ||| (b7 <<< 56) =
    b0 + b1 * 256 + b2 * 65536 + b3 * 16777216 + b4 * 4294967296 +
      b5 * 1099511627776 + b6 * 281474976710656 +
      b7 * 72057594037927936 := by
  rw [lor_shiftLeft_eq_add b1 8 (by omega)]
  rw [lor_shiftLeft_eq_add b2 16 (by omega)]
  rw [lor_shiftLeft_eq_add b3 24 (by omega)]
  rw [lor_shiftLeft_eq_add b4 32 (by omega)]
  rw [lor_shiftLeft_eq_add b5 40 (by omega)]
  rw [lor_shiftLeft_eq_add b6 48 (by omega)]
  rw [lor_shiftLeft_eq_add b7 56 (by omega)]
  omega

theorem and255_eq_mod (x : Nat) : x &&& 255 = x % 256 := by
  have h := Nat.and_pow_two_sub_one_eq_mod x 8
  norm_num at h
  exact h

/-- C8: on every exactly-8-byte buffer, the manual shift-based `DBUInt64`
codec of `lib.rs` and the `byteorder`-based codec of `db_value.rs` agree:
both reads succeed with the same decoded value, and both writes succeed
producing the same bytes. -/
theorem claim_C8_u64_codecs_equivalent (v w : Nat) (buf : List Nat)
    (h8 : buf.length = 8) (hbytes : ∀ x ∈ buf, x < 256) :
    DbValueMod.DBUInt64.read_from_buffer buf =
      some (LibMod.DBUInt64.read_from_buffer v buf).2 ∧
    (LibMod.DBUInt64.read_from_buffer v buf).1 = Except.ok () ∧
    DbValueMod.DBUInt64.write_to_buffer w buf =
      some (LibMod.DBUInt64.write_to_buffer w buf).2 ∧
    (LibMod.DBUInt64.write_to_buffer w buf).1 = Except.ok () := by
  match buf, h8 with
  | [b0, b1, b2, b3, b4, b5, b6, b7], _ =>
    have hb0 : b0 < 256 := hbytes b0 (by simp)
    have hb1 : b1 < 256 := hbytes b1 (by simp)
    have hb2 : b2 < 256 := hbytes b2 (by simp)
    have hb3 : b3 < 256 := hbytes b3 (by simp)
    have hb4 : b4 < 256 := hbytes b4 (by simp)
    have hb5 : b5 < 256 := hbytes b5 (by simp)
    have hb6 : b6 < 256 := hbytes b6 (by simp)
    have hb7 : b7 < 256 := hbytes b7 (by simp)
    refine ⟨?_, rfl, ?_, rfl⟩
    · have hdbv : DbValueMod.DBUInt64.read_from_buffer
          [b0, b1, b2, b3, b4, b5, b6, b7] =
          some (b0 + b1 * 256 + b2 * 65536 + b3 * 16777216 +
            b4 * 4294967296 + b5 * 1099511627776 + b6 * 281474976710656 +
            b7 * 72057594037927936) := rfl
      have hlib : (LibMod.DBUInt64.read_from_buffer v
          [b0, b1, b2, b3, b4, b5, b6, b7]).2 =
          b0 ||| (b1 <<< 8) ||| (b2 <<< 16) ||| (b3 <<< 24) ||| (b4 <<< 32) |||
            (b5 <<< 40) ||| (b6 <<< 48) ||| (b7 <<< 56) := rfl
      rw [hdbv, hlib, Option.some.injEq,
        lor_le_chain b0 b1 b2 b3 b4 b5 b6 b7 hb0 hb1 hb2 hb3 hb4 hb5 hb6 hb7]
    · have hdbv : DbValueMod.DBUInt64.write_to_buffer w
          [b0, b1, b2, b3, b4, b5, b6, b7] = some (leBytes64 w ++ []) := rfl
      have hlib : (LibMod.DBUInt64.write_to_buffer w
          [b0, b1, b2, b3, b4, b5, b6, b7]).2 =
          [w &&& 255, (w >>> 8) &&& 255, (w >>> 16) &&& 255,
           (w >>> 24) &&& 255, (w >>> 32) &&& 255, (w >>> 40) &&& 255,
           (w >>> 48) &&& 255, (w >>> 56) &&& 255] := rfl
      rw [hdbv, hlib, List.append_nil, Option.some.injEq]
      simp only [leBytes64, and255_eq_mod, Nat.shiftRight_eq_div_pow]

/-- Witness for C8 on the buffer `[1, 2, 3, 4, 5, 6, 7, 8]` and the value
`0x0123456789abcdef`. -/
theorem claim_C8_u64_codecs_equivalent_witness :
    DbValueMod.DBUInt64.read_from_buffer [1, 2, 3, 4, 5, 6, 7, 8] =
      some (LibMod.DBUInt64.read_from_buffer 0 [1, 2, 3, 4, 5, 6, 7, 8]).2 ∧
    (LibMod.DBUInt64.read_from_buffer 0 [1, 2, 3, 4, 5, 6, 7, 8]).1 =
      Except.ok () ∧
    DbValueMod.DBUInt64.write_to_buffer 81985529216486895
      [1, 2, 3, 4, 5, 6, 7, 8] =
      some (LibMod.DBUInt64.write_to_buffer 81985529216486895
        [1, 2, 3, 4, 5, 6, 7, 8]).2 ∧
    (LibMod.DBUInt64.write_to_buffer 81985529216486895
      [1, 2, 3, 4, 5, 6, 7, 8]).1 = Except.ok () :=
  claim_C8_u64_codecs_equivalent 0 81985529216486895 [1, 2, 3, 4, 5, 6, 7, 8]
    (by decide) (by decide)

/-- C10: the `lib.rs` `DBUInt64` codec fails exactly when the buffer length
differs from 8 (returning the expected invalid-length error) and is atomic
on failure: on `Err`, the value is left unchanged by `read_from_buffer` and
the buffer is left unchanged by `write_to_buffer`; on an 8-byte buffer both
return `Ok`. -/
theorem claim_C10_lib_u64_err_atomic (v w : Nat) (buf : List Nat) :
    ((LibMod.DBUInt64.read_from_buffer v buf).1 = Except.ok () ↔
      buf.length = 8) ∧
    (buf.length ≠ 8 →
      (LibMod.DBUInt64.read_from_buffer v buf).1 =
        Except.error ("Invalid buffer length: " ++ toString buf.length) ∧
      (LibMod.DBUInt64.read_from_buffer v buf).2 = v) ∧
    ((LibMod.DBUInt64.write_to_buffer w buf).1 = Except.ok () ↔
      buf.length = 8) ∧
    (buf.length ≠ 8 →
      (LibMod.DBUInt64.write_to_buffer w buf).1 =
        Except.error ("Invalid buffer length: " ++ toString buf.length) ∧
      (LibMod.DBUInt64.write_to_buffer w buf).2 = buf) := by
  match buf with
  | [b0, b1, b2, b3, b4, b5, b6, b7] =>
    exact ⟨iff_of_true rfl rfl, fun hne => absurd rfl hne,
      iff_of_true rfl rfl, fun hne => absurd rfl hne⟩
  | [] | [_] | [_, _] | [_, _, _] | [_, _, _, _] | [_, _, _, _, _]
  | [_, _, _, _, _, _] | [_, _, _, _, _, _, _] =>
    exact ⟨iff_of_false (fun hcontra => Except.noConfusion hcontra)
        (by simp only [List.length_cons, List.length_nil]; omega),
      fun _ => ⟨rfl, rfl⟩,
      iff_of_false (fun hcontra => Except.noConfusion hcontra)
        (by simp only [List.length_cons, List.length_nil]; omega),
      fun _ => ⟨rfl, rfl⟩⟩
  | b0 :: b1 :: b2 :: b3 :: b4 :: b5 :: b6 :: b7 :: b8 :: rest =>
    exact ⟨iff_of_false (fun hcontra => Except.noConfusion hcontra)
        (by simp only [List.length_cons, List.length_nil]; omega),
      fun _ => ⟨rfl, rfl⟩,
      iff_of_false (fun hcontra => Except.noConfusion hcontra)
        (by simp only [List.length_cons, List.length_nil]; omega),
      fun _ => ⟨rfl, rfl⟩⟩

/-- Witness for C10: a 3-byte buffer leaves the value and the buffer
untouched, an 8-byte buffer is accepted. -/
theorem claim_C10_lib_u64_err_atomic_witness :
    (LibMod.DBUInt64.read_from_buffer 5 [1, 2, 3]).2 = 5 ∧
    (LibMod.DBUInt64.write_to_buffer 7 [1, 2, 3]).2 = [1, 2, 3] ∧
    (LibMod.DBUInt64.read_from_buffer 5 (List.replicate 8 0)).1 =
      Except.ok () := by
  have h := claim_C10_lib_u64_err_atomic 5 7 [1, 2, 3]
  have h8 := claim_C10_lib_u64_err_atomic 5 7 (List.replicate 8 0)
  exact ⟨(h.2.1 (by simp)).2, (h.2.2.2 (by simp)).2, h8.1.mpr (by simp)⟩

end RansomDB
